import Mathlib

/-!
# Verification of the message-reconstruction resolver (`extract_msg.message_base`)

Shallow embedding of `src/extract_msg/message_base.py` (class `MessageBase`).

Python strings are modelled as `List Char` (`Str`), Python `None` as
`Option.none`, Python truthiness of an optional string by `pyTruthy`,
and raising code by `Except`.  Values that the surrounding library
supplies (container streams, the recipient table, the deencapsulation
result, attachment-construction outcomes) are inputs of the embedded
functions.  Lazily cached fields (`try: return self._x / except
AttributeError: compute`) are modelled by explicit state passing with an
`Option`-valued cache slot per field, `none` meaning "attribute not yet
set".
-/

/-- A Python `str` (and, where noted, `bytes`), modelled as a list of
characters. -/
abbrev Str := List Char

/-- Python truthiness of a `str`-or-`None` value: `None` and the empty
string are falsy, every other string is truthy. -/
def pyTruthy : Option Str → Bool
  | none => false
  | some s => !s.isEmpty

/-! ## `str.replace` and the double-space loop (lines 104-108)

`replaceAllF` embeds Python's `str.replace(old, new)`: a single
left-to-right pass replacing non-overlapping occurrences of `pat`.  The
first argument is fuel bounding the recursion; `replaceAll` supplies
`s.length`, which always suffices because every step consumes at least
one character of `s`. -/

def replaceAllF (pat repl : Str) : Nat → Str → Str
  | 0, s => s
  | fuel + 1, s =>
    if pat ≠ [] ∧ pat.isPrefixOf s then
      repl ++ replaceAllF pat repl fuel (s.drop pat.length)
    else
      match s with
      | [] => []
      | c :: cs => c :: replaceAllF pat repl fuel cs

/-- Python `s.replace(pat, repl)` for a non-empty `pat`. -/
def replaceAll (pat repl s : Str) : Str := replaceAllF pat repl s.length s

/-- Python `s.find(pat) != -1`: does `pat` occur as a substring of `s`? -/
def occurs (pat : Str) : Str → Bool
  | [] => pat.isPrefixOf []
  | s@(_ :: cs) => pat.isPrefixOf s || occurs pat cs

/-- The loop `while value.find('  ') != -1: value = value.replace('  ', ' ')`
(lines 107-108), with fuel; each iteration strictly shortens the string,
so `s.length` iterations always reach the fixpoint. -/
def collapseSpacesF : Nat → Str → Str
  | 0, s => s
  | fuel + 1, s =>
    if occurs [' ', ' '] s then collapseSpacesF fuel (replaceAll [' ', ' '] [' '] s)
    else s

/-- The whole double-space collapse loop of `_genRecipient`. -/
def collapseSpaces (s : Str) : Str := collapseSpacesF s.length s

/-- Lines 105-106 followed by the collapse loop: the single-line
normalization applied by `_genRecipient` to a truthy value. -/
def fixNewlines (s : Str) : Str :=
  collapseSpaces
    (replaceAll ['\n'] [' ']
      (replaceAll ['\r'] [' ']
        (replaceAll ['\r', '\n'] [' ']
          (replaceAll ['\r', '\n', '\t'] [' ']
            (replaceAll ['\r', '\n', '\t', ' '] [' ']
              (replaceAll [' ', '\r', '\n', '\t'] [' '] s))))))

/-- Python `sep.join(parts)`. -/
def joinWith (sep : Str) : List Str → Str
  | [] => []
  | [a] => a
  | a :: rest => a ++ sep ++ joinWith sep rest

/-! ## `MessageBase._genRecipient` (lines 74-113)

Inputs of the embedding: whether `self.headerInit()` is true, the header
field `self.header[recipientType]` (`none` when the header lacks that
field, as `email.Message.__getitem__` returns `None`), the resolved
recipient list `self.recipients`, the configured separator
`self.__recipientSeparator`, and the role code `recipientInt`.  The
function models the computation performed on a cache miss (the
`except AttributeError` branch); the value is then cached unchanged. -/

/-- A `Recipient` entry as `_genRecipient` consumes it: its `type`
bitmask and its `formatted` display string. -/
structure RecipientM where
  type : Nat
  formatted : Str
deriving DecidableEq

/-- The generator expression of line 96: formatted strings of the
recipients whose role bitmask low 4 bits equal the role code. -/
def foundFormatted (recips : List RecipientM) (recipientInt : Nat) : List Str :=
  (recips.filter (fun r => r.type &&& 0x0000000f == recipientInt)).map
    (fun r => r.formatted)

def genRecipient (hInit : Bool) (field : Option Str) (recips : List RecipientM)
    (sep : Str) (recipientInt : Nat) : Option Str :=
  -- `value = None`; `if self.headerInit(): value = self.header[recipientType]`
  let value0 : Option Str := if hInit then field else none
  -- `if value: value = value.replace(',', self.__recipientSeparator)`
  let value1 : Option Str :=
    if pyTruthy value0 then value0.map (replaceAll [','] sep) else value0
  -- `if not value:` → recipient-table fallback
  let value2 : Option Str :=
    if !pyTruthy value1 then
      let foundRecipients := foundFormatted recips recipientInt
      if foundRecipients.length > 0 then
        some (joinWith (sep ++ [' ']) foundRecipients)
      else value1
    else value1
  -- `if value:` → single-line whitespace normalization (lines 104-108)
  if pyTruthy value2 then value2.map fixNewlines else value2

/-- The resolution of claim C1 read literally: the whitespace
normalization it names (CR/LF pairs, lone CR, lone LF, repeated spaces
become single spaces — no tab handling) applied to the header branch
only, the recipient branch being the plain join, and `None` whenever
neither source yields anything. -/
def genRecipientClaimed (hInit : Bool) (field : Option Str)
    (recips : List RecipientM) (sep : Str) (recipientInt : Nat) : Option Str :=
  if hInit ∧ pyTruthy field then
    some (collapseSpaces
      (replaceAll ['\n'] [' ']
        (replaceAll ['\r'] [' ']
          (replaceAll ['\r', '\n'] [' ']
            (replaceAll [','] sep (field.getD []))))))
  else
    let found := foundFormatted recips recipientInt
    if found.length > 0 then some (joinWith (sep ++ [' ']) found) else none

/-! ## The RTF deencapsulation result and the HTML chain (lines 363-387)

`Deencap` models a successfully constructed `RTFDE.DeEncapsulator`:
`self.deencapsulatedRtf` is `some d` when deencapsulation succeeded and
`none` when the RTF body was absent, not encapsulated, or malformed
(lines 282-302 turn those conditions into `None`). -/

/-- Python exceptions that the embedded code can raise. -/
inductive PyErr where
  | typeError
  | attributeError
  | keyError
deriving DecidableEq

deriving instance DecidableEq for Except

structure Deencap where
  content_type : Str
  text : Str
  html : Str
deriving DecidableEq

/-- A Python value that is either a `str` or a `bytes` object; the
`htmlBody` code mixes the two. -/
inductive PyLit where
  | str (s : Str)
  | bytes (b : Str)
deriving DecidableEq

/-- Python `str.encode('utf-8')`: bytes are modelled by the same
character list, so the encoding itself is the identity on the content. -/
def utf8Encode (s : Str) : Str := s

/-- Python `bytes.replace(old, new)`: raises `TypeError` unless both
arguments are bytes-like.  Line 382 passes `str` arguments. -/
def pyBytesReplace (b : Str) (old new : PyLit) : Except PyErr Str :=
  match old, new with
  | .bytes o, .bytes n => .ok (replaceAll o n b)
  | _, _ => .error .typeError

/-- Python `repr` of a bytes object, as an f-string would interpolate it
(line 383 interpolates `correctedBody`, a bytes object, into an
f-string). -/
def bytesRepr (b : Str) : Str := "b'".toList ++ b ++ ['\'']

/-- `MessageBase.htmlBody` (lines 363-387), the computation on a cache
miss.  `htmlStream` is the value `_ensureSet` stored from
`__substg1.0_10130102`, `rtfBody` the decompressed RTF, `deencap` the
deencapsulation result, `body` the plain-text body.  Line 385 reads
`logger.into(...)`: `Logger` has no attribute `into`, so that branch
raises `AttributeError`. -/
def htmlBody (htmlStream : Option Str) (rtfBody : Option Str)
    (deencap : Option Deencap) (body : Option Str) : Except PyErr (Option PyLit) :=
  if pyTruthy htmlStream then
    .ok (htmlStream.map .bytes)
  else if pyTruthy rtfBody then
    -- `if self.deencapsulatedRtf and self.deencapsulatedRtf.content_type == 'html'`
    match deencap with
    | some d =>
      if d.content_type == "html".toList then
        .ok (some (.bytes (utf8Encode d.html)))
      else
        -- `_htmlBody` keeps the falsy value `_ensureSet` stored
        .ok (htmlStream.map .bytes)
    | none => .ok (htmlStream.map .bytes)
  else if pyTruthy body then
    -- `correctedBody = self.body.encode('utf-8').replace('\r', '').replace('\n', '</br>')`
    match pyBytesReplace (utf8Encode (body.getD [])) (.str ['\r']) (.str []) with
    | .error e => .error e
    | .ok c1 =>
      match pyBytesReplace c1 (.str ['\n']) (.str "</br>".toList) with
      | .error e => .error e
      | .ok c2 =>
        -- `self._htmlBody = f'<html><body>{correctedBody}</body></head>'`
        .ok (some (.str ("<html><body>".toList ++ bytesRepr c2 ++ "</body></head>".toList)))
  else
    .error .attributeError

/-! ## `MessageBase.body` (lines 226-245) -/

/-- The container-supplied inputs the body chain reads. -/
structure BodyInputs where
  /-- `self._getStringStream('__substg1.0_1000')` -/
  stream1000 : Option Str
  /-- `self.deencapsulatedRtf` -/
  deencap : Option Deencap
deriving DecidableEq

/-- The mutable fields `body` touches: the `_body` cache slot (`none`
while the attribute is unset) and `self.__crlf`. -/
structure BodyState where
  bodyCache : Option (Option Str) := none
  crlf : Str := ['\n']
deriving DecidableEq

/-- `MessageBase.body`: returns the cached `_body` when set, otherwise
computes and caches it.  `inputToString(x, 'utf-8')` is the identity on
an already-decoded string stream. -/
def bodyGet (inp : BodyInputs) (s : BodyState) : Option Str × BodyState :=
  match s.bodyCache with
  | some v => (v, s)
  | none =>
    -- `self._body = self._getStringStream('__substg1.0_1000')`
    let b0 := inp.stream1000
    if pyTruthy b0 then
      let bv := b0.getD []
      -- crlf detection: `re.search('\n', ...)` then `re.search('\r\n', ...)`
      let crlf1 :=
        if occurs ['\n'] bv then
          if occurs ['\r', '\n'] bv then ['\r', '\n'] else s.crlf
        else s.crlf
      (b0, { bodyCache := some b0, crlf := crlf1 })
    else
      match inp.deencap with
      | some d =>
        if d.content_type == "text".toList then
          (some d.text, { s with bodyCache := some (some d.text) })
        else (b0, { s with bodyCache := some b0 })
      | none => (b0, { s with bodyCache := some b0 })

/-! ## Attachment tree, error policy and named-property propagation
(lines 115-126, 157-202)

The attachment-construction step `self.attachmentClass(self, attachmentDir)`
lives outside this file (`attachment.py`), so its outcome per directory is
an input: success, a `NotImplementedError`/`UnrecognizedMSGTypeError`, or
any other exception. -/

/-- Modelled from the spec: the three-level error-policy constants live in
`constants.py`, which is not part of the given sources; the spec fixes a
strictly ordered three-level enum `throwOnError` (strictest) <
`tolerateUnsupportedType` < `tolerateAnyError` (most permissive). -/
def ATTACHMENT_ERROR_THROW : Nat := 0

/-- Modelled from the spec: see `ATTACHMENT_ERROR_THROW`. -/
def ATTACHMENT_ERROR_NOT_IMPLEMENTED : Nat := 1

/-- Modelled from the spec: see `ATTACHMENT_ERROR_THROW`. -/
def ATTACHMENT_ERROR_BROKEN : Nat := 2

/-- The outcome of `self.attachmentClass(self, attachmentDir)` for one
directory. -/
inductive ConstructOutcome where
  /-- construction succeeded -/
  | ok
  /-- raised `NotImplementedError` or `UnrecognizedMSGTypeError` (line 177) -/
  | unsupportedType
  /-- raised any other `Exception` (line 184) -/
  | otherError
deriving DecidableEq

/-- Which of the three variants an entry of `self._attachments` is. -/
inductive AttKind where
  | normal
  | unsupported
  | broken
deriving DecidableEq

/-- The variant of placeholder (or real attachment) each construction
outcome produces under the most permissive policy (lines 176-188). -/
def variantFor : ConstructOutcome → AttKind
  | .ok => .normal
  | .unsupportedType => .unsupported
  | .otherError => .broken

/-- A queued named-property registration: the `(entry, _type, name)`
triple passed to `_registerNamedProperty`. -/
structure Reg where
  entry : Nat
  type : Nat
  name : Option Str
deriving DecidableEq

/-- An entry of `self._attachments`: its variant, its directory, and the
named-property registrations it has received. -/
structure AttObj where
  kind : AttKind
  dir : Str
  received : List Reg := []
deriving DecidableEq

/-- Modelled from the spec: `Attachment._registerNamedProperty` (in
`attachment.py`, not part of the given sources) relays the registration
to the attachment; per the spec only successfully constructed
attachments process named properties, the placeholder variants being
inert. -/
def attRegister (r : Reg) (a : AttObj) : AttObj :=
  match a.kind with
  | .normal => { a with received := a.received ++ [r] }
  | _ => a

/-- The enumeration loop of `attachments` (lines 165-170): keep entries
whose name at index `prefixLen` starts with `'__attach'`, deduplicated
in first-seen order.  `listDir(False, True)` and `prefixLen` come from
`MSGFile` (not part of the given sources); per the spec every listed
path carries the structural prefix, so indexing at `prefixLen` is in
range — the embedding totalizes it with `getD`. -/
def attachmentDirs (prefixLen : Nat) (entries : List (List Str)) : List Str :=
  entries.foldl
    (fun acc d =>
      let name := d.getD prefixLen []
      if "__attach".toList.isPrefixOf name ∧ !acc.contains name then acc ++ [name]
      else acc)
    []

/-- The construction loop of `attachments` (lines 174-190):
`self._attachments` starts as `[]` (modelled by `acc`) and grows; a
propagated exception leaves the partial list behind and reports the
failing directory. -/
def buildAttachmentsAux (behavior : Nat) (construct : Str → ConstructOutcome) :
    List Str → List AttObj → List AttObj × Option Str
  | [], acc => (acc, none)
  | d :: rest, acc =>
    match construct d with
    | .ok => buildAttachmentsAux behavior construct rest (acc ++ [⟨.normal, d, []⟩])
    | .unsupportedType =>
      if behavior > ATTACHMENT_ERROR_THROW then
        buildAttachmentsAux behavior construct rest (acc ++ [⟨.unsupported, d, []⟩])
      else (acc, some d)
    | .otherError =>
      if behavior == ATTACHMENT_ERROR_BROKEN then
        buildAttachmentsAux behavior construct rest (acc ++ [⟨.broken, d, []⟩])
      else (acc, some d)

/-- The mutable fields of `MessageBase` that the attachment tree and
named-property propagation touch. -/
structure MsgState where
  /-- `self.__attachmentsDelayed` -/
  delayed : Bool
  /-- `self.__attachmentsReady` -/
  ready : Bool := false
  /-- `self.__waitingProperties` (`none` while the attribute is unset) -/
  waiting : Option (List Reg) := none
  /-- `self._attachments` (`none` while the attribute is unset) -/
  attachmentsCache : Option (List AttObj) := none
  /-- the registrations `super()._registerNamedProperty` recorded -/
  namedProps : List Reg := []
deriving DecidableEq

/-- Replay of queued registrations (lines 195-198): outer loop over the
attachments, inner loop over the queue. -/
def replayAll (q : List Reg) (l : List AttObj) : List AttObj :=
  l.map (fun a => q.foldl (fun b r => attRegister r b) a)

/-- `MessageBase.attachments` (lines 157-202).  On a cache miss it runs
the construction loop; a propagated construction error leaves the
partial `self._attachments` cached (line 172 assigns it before the
loop) and skips the ready flag and replay (lines 192-200). -/
def attachmentsGet (behavior : Nat) (construct : Str → ConstructOutcome)
    (dirs : List Str) (s : MsgState) : Except Str (List AttObj) × MsgState :=
  match s.attachmentsCache with
  | some l => (.ok l, s)
  | none =>
    match buildAttachmentsAux behavior construct dirs [] with
    | (l, some d) => (.error d, { s with attachmentsCache := some l })
    | (l, none) =>
      -- `self.__attachmentsReady = True`, then the guarded replay:
      -- `try: self.__waitingProperties; if self.__attachmentsDelayed: ...`
      let l1 :=
        match s.waiting with
        | some q => if s.delayed then replayAll q l else l
        | none => l
      (.ok l1, { s with attachmentsCache := some l1, ready := true })

/-- `MessageBase._registerNamedProperty` (lines 115-126).  When the
else-branch iterates `self.attachments`, that property access can itself
run the construction loop, so the resolution inputs are parameters; a
construction error propagates out of the registration call before
`super()._registerNamedProperty` runs. -/
def registerNamedProperty (behavior : Nat) (construct : Str → ConstructOutcome)
    (dirs : List Str) (r : Reg) (s : MsgState) : Except Str MsgState :=
  if s.delayed ∧ !s.ready then
    let q := s.waiting.getD []
    .ok { s with waiting := some (q ++ [r]), namedProps := s.namedProps ++ [r] }
  else
    match attachmentsGet behavior construct dirs s with
    | (.error e, _) => .error e
    | (.ok l, s1) =>
      .ok { s1 with
        attachmentsCache := some (l.map (attRegister r))
        namedProps := s1.namedProps ++ [r] }

/-- A sequence of `_registerNamedProperty` calls, threaded through the
message state; an error from any call propagates. -/
def regMany (behavior : Nat) (construct : Str → ConstructOutcome)
    (dirs : List Str) : List Reg → MsgState → Except Str MsgState
  | [], s => .ok s
  | r :: rest, s =>
    match registerNamedProperty behavior construct dirs r s with
    | .error e => .error e
    | .ok t => regMany behavior construct dirs rest t

/-! ## Header resolution and `headerInit` (lines 139-147, 321-345) -/

/-- The value stored in `self._header`: either parsed from the raw
stream `__substg1.0_007D` (with its Date overwritten by the resolved
send date, line 332) or synthesized field-by-field (lines 335-344). -/
inductive HeaderV where
  | parsed (raw : Str) (date : Option Str)
  | synthesized (date sender toRecip cc bcc messageId : Option Str)
deriving DecidableEq

/-- The already-resolved fields header synthesis reads. -/
structure HeaderDeps where
  date : Option Str
  sender : Option Str
  toRecip : Option Str
  cc : Option Str
  bcc : Option Str
  messageId : Option Str
deriving DecidableEq

/-- `MessageBase.header` (lines 321-345): returns the cached `_header`
when set, otherwise parses the raw stream when it is truthy and
synthesizes a header otherwise, caching the result either way. -/
def headerGet (rawStream : Option Str) (deps : HeaderDeps)
    (s : Option HeaderV) : HeaderV × Option HeaderV :=
  match s with
  | some h => (h, s)
  | none =>
    if pyTruthy rawStream then
      let h := HeaderV.parsed (rawStream.getD []) deps.date
      (h, some h)
    else
      let h := HeaderV.synthesized deps.date deps.sender deps.toRecip deps.cc
        deps.bcc deps.messageId
      (h, some h)

/-- `MessageBase.headerInit` (lines 139-147): true exactly when the
`_header` attribute exists. -/
def headerInitF (s : Option HeaderV) : Bool := s.isSome

/-! ## `MessageBase.close` (lines 128-137) -/

/-- The outcome of `attachment.data.close()` for one attachment. -/
inductive CloseOutcome where
  | ok
  | attrError
  | otherError
deriving DecidableEq

/-- What `close` sees of one attachment: an identifier, its `type`
string, and what its `data.close()` call would do. -/
structure CloseAtt where
  id : Nat
  typ : Str
  closeOutcome : CloseOutcome
deriving DecidableEq

/-- The observable outcome of `MessageBase.close`: which attachments
were successfully closed (in order), the exception propagated to the
caller if any, and whether `super().close()` ran. -/
structure CloseResult where
  closed : List Nat
  raised : Option CloseOutcome
  superClosed : Bool
deriving DecidableEq

/-- The loop of lines 132-134: close `attachment.data` for each
attachment whose `type` is `'msg'`, stopping at the first failure. -/
def closeLoop : List CloseAtt → List Nat × Option CloseOutcome
  | [] => ([], none)
  | a :: rest =>
    if a.typ == "msg".toList then
      match a.closeOutcome with
      | .ok =>
        let r := closeLoop rest
        (a.id :: r.1, r.2)
      | .attrError => ([], some .attrError)
      | .otherError => ([], some .otherError)
    else closeLoop rest

/-- `MessageBase.close` (lines 128-137).  `loaded` is whether the
`_attachments` attribute exists (line 131); when it does not, the
`AttributeError` is swallowed and only `super().close()` runs.  An
`AttributeError` raised inside the loop is swallowed by the same
handler; any other exception propagates before `super().close()`. -/
def closeMsg (loaded : Bool) (atts : List CloseAtt) : CloseResult :=
  if loaded then
    match closeLoop atts with
    | (cl, none) => ⟨cl, none, true⟩
    | (cl, some .attrError) => ⟨cl, none, true⟩
    | (cl, some .otherError) => ⟨cl, some .otherError, false⟩
    | (cl, some .ok) => ⟨cl, none, true⟩
  else ⟨[], none, true⟩

/-- The teardown behaviour claim C8 describes: every `'msg'`-typed
attachment is closed best-effort (each one whose own close succeeds ends
up closed even if an earlier one failed), and the first failure is
propagated. -/
def closeClaimed (atts : List CloseAtt) : CloseResult :=
  let msgAtts := atts.filter (fun a => a.typ == "msg".toList)
  let closed := (msgAtts.filter (fun a => a.closeOutcome == .ok)).map (fun a => a.id)
  let raised := (msgAtts.filter (fun a => a.closeOutcome ≠ .ok)).head?.map
    (fun a => a.closeOutcome)
  ⟨closed, raised, raised.isNone⟩

/-! ## `MessageBase.defaultFolderName` (lines 305-318) -/

/-- The first five components of `email.utils.parsedate`'s 9-tuple:
year, month, day, hour, minute — exactly the ones the format string
`'{0:02d}-{1:02d}-{2:02d}_{3:02d}{4:02d}'` consumes. -/
structure ParsedDate where
  year : Nat
  month : Nat
  day : Nat
  hour : Nat
  minute : Nat
deriving DecidableEq

/-- Python `'{:02d}'.format(n)`: decimal digits, zero-padded to at least
two. -/
def fmt02 (n : Nat) : Str := if n < 10 then '0' :: Nat.toDigits 10 n else Nat.toDigits 10 n

/-- `MessageBase.defaultFolderName` (lines 305-318), the computation on a
cache miss.  `prep` stands for `utils.prepareFilename` (not part of the
given sources — the spec calls it filesystem sanitization), `d` for
`self.parsedDate`, `subject` for `self.subject`. -/
def defaultFolderName (prep : Str → Str) (d : Option ParsedDate)
    (subject : Option Str) : Str :=
  let dirName :=
    match d with
    | some t =>
      fmt02 t.year ++ ['-'] ++ fmt02 t.month ++ ['-'] ++ fmt02 t.day ++ ['_']
        ++ fmt02 t.hour ++ fmt02 t.minute
    | none => "UnknownDate".toList
  dirName ++ [' ']
    ++ (if pyTruthy subject then prep (subject.getD []) else "[No subject]".toList)

/-- The folder name claim C9 describes: the date part formatted as
`MM-DD-YY_HHmm` (month, day, two-digit year). -/
def defaultFolderNameClaimed (prep : Str → Str) (d : Option ParsedDate)
    (subject : Option Str) : Str :=
  let dirName :=
    match d with
    | some t =>
      fmt02 t.month ++ ['-'] ++ fmt02 t.day ++ ['-'] ++ fmt02 (t.year % 100) ++ ['_']
        ++ fmt02 t.hour ++ fmt02 t.minute
    | none => "UnknownDate".toList
  dirName ++ [' ']
    ++ (if pyTruthy subject then prep (subject.getD []) else "[No subject]".toList)

/-! ## Sender, message-id and read-flag resolvers (lines 425-429,
432-445, 490-517) -/

/-- `MessageBase.sender` (lines 490-517), the computation on a cache
miss: header `From` when the header is initialized and the field is not
`None` (the check is `is not None`, not truthiness); otherwise the
display-name stream `__substg1.0_0C1A` and address stream
`__substg1.0_5D01` combined as `'name <email>'`, either being allowed to
be absent. -/
def senderGet (hInit : Bool) (headerFrom : Option Str)
    (stream0C1A stream5D01 : Option Str) : Option Str :=
  if hInit ∧ headerFrom.isSome then headerFrom
  else
    match stream0C1A with
    | none => stream5D01
    | some text =>
      match stream5D01 with
      | none => some text
      | some em => some (text ++ " <".toList ++ em ++ ['>'])

/-- `MessageBase.messageId` (lines 432-445), the computation on a cache
miss: the header `message-id` when the header is initialized and the
field is not `None`, else the stream `__substg1.0_1035`. -/
def messageIdGet (hInit : Bool) (headerMid : Option Str)
    (stream1035 : Option Str) : Option Str :=
  let headerResult := if hInit then headerMid else none
  match headerResult with
  | some v => some v
  | none => stream1035

/-- `MessageBase.isRead` (lines 425-429):
`bool(self.mainProperties['0E070003'].value & 1)`.  `mainProperties` is
the typed property table of `MSGFile` (not part of the given sources);
per its mapping interface a missing key makes the subscript raise
`KeyError` — there is no guard in `isRead`. -/
def isRead (mainProperties : List (Str × Nat)) : Except PyErr Bool :=
  match mainProperties.lookup "0E070003".toList with
  | some v => .ok (v &&& 1 != 0)
  | none => .error .keyError


/-- The amended folder-name resolution: the date part is
`YYYY-MM-DD_HHmm` — year, month, day (zero-padded to at least two
digits), an underscore, hour and minute — or `UnknownDate` when the date
cannot be parsed, then a space and the sanitized subject or
`[No subject]`. -/
def defaultFolderNameAmended (prep : Str → Str) (d : Option ParsedDate)
    (subject : Option Str) : Str :=
  (match d with
   | some t =>
     fmt02 t.year ++ ['-'] ++ fmt02 t.month ++ ['-'] ++ fmt02 t.day ++ ['_']
       ++ fmt02 t.hour ++ fmt02 t.minute
   | none => "UnknownDate".toList)
  ++ [' ']
  ++ (match subject with
      | some subj => if subj.isEmpty then "[No subject]".toList else prep subj
      | none => "[No subject]".toList)

/-- A concrete attachment-construction outcome map used by witnesses:
construction fails with an unexpected error at `__attach1` and succeeds
elsewhere. -/
def constructEx : Str → ConstructOutcome :=
  fun d => if d == "__attach1".toList then .otherError else .ok

/-! # Lemmas -/

/-- A non-empty pattern is not a prefix of the empty string. -/
theorem isPrefixOf_nil_eq_false (pat : Str) (hp : pat ≠ []) :
    pat.isPrefixOf ([] : Str) = false := by
  cases pat with
  | nil => simp at hp
  | cons a as => rfl

/-- One `str.replace` pass never lengthens the string when the
replacement is no longer than the pattern. -/
theorem replaceAllF_length_le (pat repl : Str) (h : repl.length ≤ pat.length) :
    ∀ fuel s, (replaceAllF pat repl fuel s).length ≤ s.length := by
  intro fuel
  induction fuel with
  | zero => intro s; simp [replaceAllF]
  | succ n ih =>
    intro s
    simp only [replaceAllF]
    split
    · rename_i hcond
      have hpre : pat <+: s := List.isPrefixOf_iff_prefix.mp hcond.2
      have hlen : pat.length ≤ s.length := hpre.length_le
      have hrec := ih (s.drop pat.length)
      simp only [List.length_append, List.length_drop] at hrec ⊢
      omega
    · cases s with
      | nil => simp
      | cons c cs => simpa using ih cs

/-- One `str.replace` pass strictly shortens the string when the pattern
occurs and the replacement is shorter than the pattern. -/
theorem replaceAllF_length_lt (pat repl : Str) (h : repl.length < pat.length) :
    ∀ fuel s, s.length ≤ fuel → occurs pat s = true →
      (replaceAllF pat repl fuel s).length < s.length := by
  have hp : pat ≠ [] := by
    intro he
    rw [he] at h
    simp at h
  intro fuel
  induction fuel with
  | zero =>
    intro s hs hocc
    have hnil : s = [] := List.eq_nil_of_length_eq_zero (Nat.le_zero.mp hs)
    rw [hnil] at hocc
    simp [occurs, isPrefixOf_nil_eq_false pat hp] at hocc
  | succ n ih =>
    intro s hs hocc
    simp only [replaceAllF]
    split
    · rename_i hcond
      have hpre : pat <+: s := List.isPrefixOf_iff_prefix.mp hcond.2
      have hlen : pat.length ≤ s.length := hpre.length_le
      have hrec := replaceAllF_length_le pat repl (Nat.le_of_lt h) n (s.drop pat.length)
      simp only [List.length_append, List.length_drop] at hrec ⊢
      omega
    · rename_i hcond
      cases s with
      | nil => simp [occurs, isPrefixOf_nil_eq_false pat hp] at hocc
      | cons c cs =>
        have hnp : pat.isPrefixOf (c :: cs) = false := by
          by_contra hx
          exact hcond ⟨hp, by simpa using hx⟩
        simp only [occurs, hnp, Bool.false_or] at hocc
        have := ih cs (by simpa using Nat.le_of_succ_le_succ hs) hocc
        simpa using Nat.succ_lt_succ this

/-- The double-space collapse loop reaches a double-space-free fixpoint
within `length` iterations. -/
theorem collapseSpacesF_no_double :
    ∀ fuel (s : Str), s.length ≤ fuel →
      occurs [' ', ' '] (collapseSpacesF fuel s) = false := by
  intro fuel
  induction fuel with
  | zero =>
    intro s hs
    have hnil : s = [] := List.eq_nil_of_length_eq_zero (Nat.le_zero.mp hs)
    rw [hnil]
    rfl
  | succ n ih =>
    intro s hs
    simp only [collapseSpacesF]
    split
    · rename_i hocc
      apply ih
      have hlt := replaceAllF_length_lt [' ', ' '] [' '] (by decide) s.length s
        (Nat.le_refl _) hocc
      have : (replaceAll [' ', ' '] [' '] s).length < s.length := hlt
      omega
    · rename_i hocc
      simpa using hocc

/-! # Claim theorems -/

/-- C10: the whitespace-normalization loop of `_genRecipient` terminates
on every input: whenever a double space occurs, one pass of
`value.replace('  ', ' ')` (which rewrites all non-overlapping
occurrences) strictly shortens the string, and the loop embedded with
`length` fuel reaches a state with no double space, so the loop — and
with it `_genRecipient` — is total. -/
theorem c10_collapse_loop_terminates (s : Str) :
    (occurs [' ', ' '] s = true →
      (replaceAll [' ', ' '] [' '] s).length < s.length) ∧
    occurs [' ', ' '] (collapseSpaces s) = false := by
  constructor
  · intro h
    exact replaceAllF_length_lt [' ', ' '] [' '] (by decide) s.length s
      (Nat.le_refl _) h
  · exact collapseSpacesF_no_double s.length s (Nat.le_refl _)

/-- Witness for C10 at the concrete input `"a  b"`. -/
theorem c10_collapse_loop_terminates_witness :
    occurs [' ', ' '] "a  b".toList = true ∧
    (replaceAll [' ', ' '] [' '] "a  b".toList).length < "a  b".toList.length ∧
    occurs [' ', ' '] (collapseSpaces "a  b".toList) = false :=
  ⟨by decide, (c10_collapse_loop_terminates "a  b".toList).1 (by decide),
    (c10_collapse_loop_terminates "a  b".toList).2⟩

/-- C1, counterexample: with no header and a single `to` recipient whose
formatted string contains a double space, `_genRecipient` normalizes the
joined recipient list (yielding `"a b"`), while the claim as stated
leaves the join untouched (yielding `"a  b"`). -/
theorem c1_recipient_counterexample :
    genRecipient false none [⟨1, "a  b".toList⟩] [';'] 1
        = some "a b".toList ∧
    genRecipientClaimed false none [⟨1, "a  b".toList⟩] [';'] 1
        = some "a  b".toList ∧
    genRecipient false none [⟨1, "a  b".toList⟩] [';'] 1
        ≠ genRecipientClaimed false none [⟨1, "a  b".toList⟩] [';'] 1 := by
  refine ⟨by decide, by decide, by decide⟩

/-- C2: the HTML resolution chain of `htmlBody`.  The first two
precedence steps behave as claimed (raw stream wins; otherwise
RTF-deencapsulated HTML), but the plain-text synthesis branch raises
`TypeError` (line 382 calls `bytes.replace` with `str` arguments) and
the final branch raises `AttributeError` (line 385 calls the
nonexistent `logger.into`), where the claim — and the code's evident
intent — is a synthesized wrapper resp. `None`. -/
theorem c2_html_chain_code_bug :
    htmlBody (some "<p>x</p>".toList) (some "r".toList)
        (some ⟨"html".toList, [], "<b>y</b>".toList⟩) (some "z".toList)
        = .ok (some (.bytes "<p>x</p>".toList)) ∧
    htmlBody none (some "r".toList)
        (some ⟨"html".toList, [], "<b>y</b>".toList⟩) (some "z".toList)
        = .ok (some (.bytes "<b>y</b>".toList)) ∧
    htmlBody none none none (some "hi".toList) = .error .typeError ∧
    htmlBody none none none none = .error .attributeError := by
  refine ⟨by decide, by decide, by decide, by decide⟩

/-- C4, counterexample: `isRead` raises `KeyError` when the read-flag
property `0E070003` is absent, so not every non-attachment resolver
tolerates missing input. -/
theorem c4_resolver_counterexample : isRead [] = .error .keyError := by decide

/-- C7, counterexample: after the header of a message with no raw
header stream has been resolved (synthesized field-by-field),
`headerInit()` returns `True`, not `False` as the claim states: it
reports whether `_header` has been set, not whether a raw stream was
found. -/
theorem c7_headerInit_counterexample :
    headerInitF (headerGet none ⟨none, none, none, none, none, none⟩ none).2
      = true := by decide

/-- C8, counterexample: with two nested-message attachments of which the
first fails to close with a non-`AttributeError` exception, `close`
aborts: the second attachment is never closed and `super().close()` is
skipped, while the claimed best-effort teardown would still close the
second. -/
theorem c8_close_counterexample :
    closeMsg true [⟨0, "msg".toList, .otherError⟩, ⟨1, "msg".toList, .ok⟩]
        = ⟨[], some .otherError, false⟩ ∧
    closeClaimed [⟨0, "msg".toList, .otherError⟩, ⟨1, "msg".toList, .ok⟩]
        = ⟨[1], some .otherError, false⟩ ∧
    closeMsg true [⟨0, "msg".toList, .otherError⟩, ⟨1, "msg".toList, .ok⟩]
        ≠ closeClaimed [⟨0, "msg".toList, .otherError⟩, ⟨1, "msg".toList, .ok⟩] := by
  refine ⟨by decide, by decide, by decide⟩

/-- C9, counterexample: for the parsed date (2023, 5, 7, 13, 42) the
code formats the folder prefix as `2023-05-07_1342` (the format string
consumes year, month, day, hour, minute in that order), not the claimed
`MM-DD-YY_HHmm` rendering `05-07-23_1342`. -/
theorem c9_folder_counterexample :
    defaultFolderName id (some ⟨2023, 5, 7, 13, 42⟩) none
        = "2023-05-07_1342 [No subject]".toList ∧
    defaultFolderNameClaimed id (some ⟨2023, 5, 7, 13, 42⟩) none
        = "05-07-23_1342 [No subject]".toList ∧
    defaultFolderName id (some ⟨2023, 5, 7, 13, 42⟩) none
        ≠ defaultFolderNameClaimed id (some ⟨2023, 5, 7, 13, 42⟩) none := by
  refine ⟨by decide, by decide, by decide⟩

/-- C1, amended: for every role, when the header is initialized and the
role field is non-empty (and stays non-empty after the comma
replacement), the resolved address is the field value with commas
replaced by the configured separator and the code's full whitespace
normalization (`fixNewlines`: CR/LF-tab continuation sequences, CR/LF
pairs, lone CR/LF, then repeated spaces, all collapsed toward single
spaces) applied; when the header is uninitialized or the field is
absent/empty, the resolved address is the role-filtered formatted
recipients joined by `separator + ' '` with the same normalization
applied to the join; and when neither source yields anything the result
is empty/`None`, never an error. -/
theorem c1_recipient_resolution (hInit : Bool) (field : Option Str)
    (recips : List RecipientM) (sep : Str) (rint : Nat) :
    (hInit = true → pyTruthy field = true →
      pyTruthy (field.map (replaceAll [','] sep)) = true →
      genRecipient hInit field recips sep rint
        = some (fixNewlines (replaceAll [','] sep (field.getD [])))) ∧
    ((hInit = false ∨ pyTruthy field = false) →
      foundFormatted recips rint ≠ [] →
      genRecipient hInit field recips sep rint
        = some (fixNewlines (joinWith (sep ++ [' ']) (foundFormatted recips rint)))) ∧
    ((hInit = false ∨ pyTruthy field = false) →
      foundFormatted recips rint = [] →
      pyTruthy (genRecipient hInit field recips sep rint) = false) := by
  refine ⟨?_, ?_, ?_⟩
  · intro h1 h2 h3
    subst h1
    cases field with
    | none => simp [pyTruthy] at h2
    | some v =>
      simp only [Option.map] at h3
      simp [genRecipient, h2, h3]
  · intro hc hf
    have hlen : 0 < (foundFormatted recips rint).length := List.length_pos.mpr hf
    have hval1 : (if hInit then field else none) = none
        ∨ (if hInit then field else none) = some [] := by
      rcases hc with h | h
      · subst h; simp
      · cases field with
        | none => cases hInit <;> simp
        | some v =>
          simp only [pyTruthy, Bool.not_eq_true'] at h
          have : v = [] := List.isEmpty_iff.mp (by simpa using h)
          subst this
          cases hInit <;> simp
    by_cases hj : pyTruthy (some (joinWith (sep ++ [' ']) (foundFormatted recips rint))) = true
    · rcases hval1 with h | h <;>
        simp [genRecipient, h, pyTruthy, hlen, hj] <;>
        simp [pyTruthy] at hj <;> simp [hj]
    · have hje : joinWith (sep ++ [' ']) (foundFormatted recips rint) = [] := by
        simp [pyTruthy] at hj
        exact hj
      have hfx : fixNewlines ([] : Str) = [] := rfl
      rcases hval1 with h | h <;>
        simp [genRecipient, h, pyTruthy, hlen, hje, hfx]
  · intro hc hf
    have hval1 : (if hInit then field else none) = none
        ∨ (if hInit then field else none) = some [] := by
      rcases hc with h | h
      · subst h; simp
      · cases field with
        | none => cases hInit <;> simp
        | some v =>
          simp only [pyTruthy, Bool.not_eq_true'] at h
          have : v = [] := List.isEmpty_iff.mp (by simpa using h)
          subst this
          cases hInit <;> simp
    rcases hval1 with h | h <;> simp [genRecipient, h, hf, pyTruthy]

/-- Witness for C1 at a concrete header value `"a,b\r\nc"`, separator
`';'`. -/
theorem c1_recipient_resolution_witness :
    genRecipient true (some "a,b\r\nc".toList) [] [';'] 1
      = some (fixNewlines (replaceAll [','] [';'] "a,b\r\nc".toList)) :=
  (c1_recipient_resolution true (some "a,b\r\nc".toList) [] [';'] 1).1
    rfl (by decide) (by decide)

/-- C9, amended: the default folder name is the date part
`YYYY-MM-DD_HHmm` (or `UnknownDate`), a space, and the sanitized subject
(or `[No subject]`). -/
theorem c9_folder_name_amended (prep : Str → Str) (d : Option ParsedDate)
    (subject : Option Str) :
    defaultFolderName prep d subject = defaultFolderNameAmended prep d subject := by
  cases d with
  | none =>
    cases subject with
    | none => rfl
    | some subj =>
      cases hsub : subj.isEmpty <;>
        simp [defaultFolderName, defaultFolderNameAmended, pyTruthy, hsub]
  | some t =>
    cases subject with
    | none => rfl
    | some subj =>
      cases hsub : subj.isEmpty <;>
        simp [defaultFolderName, defaultFolderNameAmended, pyTruthy, hsub]

/-- C7, amended: `headerInit()` reports whether the header field has
been computed and cached, not whether a raw header stream was found:
after any header resolution — raw-parsed or synthesized — it returns
`True`, and it returns `False` exactly while the header is still
unresolved (which is the state dependent resolvers see during header
synthesis). -/
theorem c7_headerInit_reports_cache :
    (∀ (raw : Option Str) (deps : HeaderDeps) (s0 : Option HeaderV),
      headerInitF (headerGet raw deps s0).2 = true) ∧
    headerInitF (none : Option HeaderV) = false := by
  refine ⟨?_, rfl⟩
  intro raw deps s0
  cases s0 with
  | some h => rfl
  | none =>
    by_cases h : pyTruthy raw = true <;> simp [headerGet, headerInitF, h]

/-- C4, amended: the fallback-chain resolvers `body`, `sender` and
`messageId` return `None` on wholly absent input without raising, but
`isRead` raises `KeyError` whenever the read-flag property `0E070003`
is absent (and `htmlBody` raises in its synthesis/absent branches, see
C2), so the attachment tree is not the only resolver that can surface
an error. -/
theorem c4_resolvers_on_missing_input (props : List (Str × Nat))
    (hmiss : props.lookup "0E070003".toList = none) :
    (bodyGet ⟨none, none⟩ {}).1 = none ∧
    senderGet false none none none = none ∧
    messageIdGet false none none = none ∧
    isRead props = .error .keyError := by
  refine ⟨by decide, rfl, rfl, ?_⟩
  unfold isRead
  rw [hmiss]

/-- Witness for C4 at a concrete one-entry property table lacking the
read-flag property. -/
theorem c4_resolvers_on_missing_input_witness :
    (bodyGet ⟨none, none⟩ {}).1 = none ∧
    senderGet false none none none = none ∧
    messageIdGet false none none = none ∧
    isRead [("0037000E".toList, 1)] = .error .keyError :=
  c4_resolvers_on_missing_input [("0037000E".toList, 1)] (by decide)

/-- A `body` access on a state whose `_body` attribute is set returns
the cached value and leaves the state unchanged. -/
theorem bodyGet_cached (inp : BodyInputs) (s : BodyState) (v : Option Str)
    (h : s.bodyCache = some v) : bodyGet inp s = (v, s) := by
  simp [bodyGet, h]

/-- Every `body` access leaves the `_body` attribute set to the value it
returned. -/
theorem bodyGet_sets (inp : BodyInputs) (s : BodyState) :
    ((bodyGet inp s).2).bodyCache = some ((bodyGet inp s).1) := by
  cases hc : s.bodyCache with
  | some v => simp [bodyGet, hc]
  | none =>
    simp only [bodyGet, hc]
    by_cases ht : pyTruthy inp.stream1000 = true
    · simp [ht]
    · cases hd : inp.deencap with
      | none => simp [ht, hd]
      | some d =>
        by_cases hct : d.content_type = "text".toList
        · simp [ht, hd, hct]
        · have hct2 : ¬d.content_type = ['t', 'e', 'x', 't'] := hct
          simp [ht, hd, hct2]

/-- C5: derived-field resolution is idempotent.  A second `body` access
performed on the state a first access leaves behind returns the same
value and state; and once `attachments` resolves successfully, a second
access returns the same list without recomputation and without touching
the state. -/
theorem c5_lazy_cache_idempotent :
    (∀ (inp : BodyInputs) (s : BodyState),
      bodyGet inp ((bodyGet inp s).2) = bodyGet inp s) ∧
    (∀ (behavior : Nat) (construct : Str → ConstructOutcome) (dirs : List Str)
        (s : MsgState) (l : List AttObj) (t : MsgState),
      attachmentsGet behavior construct dirs s = (.ok l, t) →
      attachmentsGet behavior construct dirs t = (.ok l, t)) := by
  constructor
  · intro inp s
    rw [bodyGet_cached inp ((bodyGet inp s).2) ((bodyGet inp s).1) (bodyGet_sets inp s)]
  · intro behavior construct dirs s l t h
    cases hc : s.attachmentsCache with
    | some l0 =>
      rw [attachmentsGet, hc] at h
      simp only [Prod.mk.injEq, Except.ok.injEq] at h
      obtain ⟨hl, ht⟩ := h
      subst hl
      subst ht
      simp [attachmentsGet, hc]
    | none =>
      rw [attachmentsGet, hc] at h
      rcases hb : buildAttachmentsAux behavior construct dirs [] with ⟨l0, err⟩
      rw [hb] at h
      cases err with
      | some d => simp at h
      | none =>
        simp only [Prod.mk.injEq, Except.ok.injEq] at h
        obtain ⟨hl, ht⟩ := h
        subst hl
        subst ht
        simp [attachmentsGet]

/-- Witness for C5, part two, at a state whose attachment cache is
already populated with the empty list. -/
theorem c5_lazy_cache_idempotent_witness :
    attachmentsGet 2 constructEx [] ⟨false, false, none, some [], []⟩
      = (.ok [], ⟨false, false, none, some [], []⟩) :=
  c5_lazy_cache_idempotent.2 2 constructEx [] ⟨false, false, none, some [], []⟩
    [] ⟨false, false, none, some [], []⟩ (by decide)

/-- Under the most permissive policy the construction loop substitutes a
placeholder for every failure and never propagates: the result is one
variant per directory, in order, and no error. -/
theorem buildAttachmentsAux_broken (construct : Str → ConstructOutcome) :
    ∀ (dirs : List Str) (acc : List AttObj),
      buildAttachmentsAux ATTACHMENT_ERROR_BROKEN construct dirs acc
        = (acc ++ dirs.map (fun d => ⟨variantFor (construct d), d, []⟩), none) := by
  intro dirs
  induction dirs with
  | nil => intro acc; simp [buildAttachmentsAux]
  | cons d rest ih =>
    intro acc
    cases hc : construct d <;>
      simp [buildAttachmentsAux, hc, ih, variantFor,
        show ATTACHMENT_ERROR_THROW < ATTACHMENT_ERROR_BROKEN by decide]

/-- C3: under policy `tolerateAnyError` the attachment tree resolution
never raises: it returns exactly one entry per enumerated
(deduplicated) attachment directory, substituting `UnsupportedAttachment`
for a recognized-but-unsupported type and `BrokenAttachment` for any
other construction failure.  The hypothesis records the container
invariant that every listed path carries the structural prefix. -/
theorem c3_attachment_tree_tolerates_all (construct : Str → ConstructOutcome)
    (prefixLen : Nat) (entries : List (List Str)) (delayed : Bool)
    (_hstruct : ∀ d ∈ entries, prefixLen < d.length) :
    attachmentsGet ATTACHMENT_ERROR_BROKEN construct
        (attachmentDirs prefixLen entries) ⟨delayed, false, none, none, []⟩
      = (.ok ((attachmentDirs prefixLen entries).map
            (fun d => ⟨variantFor (construct d), d, []⟩)),
         ⟨delayed, true, none,
          some ((attachmentDirs prefixLen entries).map
            (fun d => ⟨variantFor (construct d), d, []⟩)), []⟩)
    ∧ ((attachmentDirs prefixLen entries).map
        (fun d => (⟨variantFor (construct d), d, []⟩ : AttObj))).length
      = (attachmentDirs prefixLen entries).length := by
  refine ⟨?_, by simp⟩
  simp [attachmentsGet, buildAttachmentsAux_broken construct (attachmentDirs prefixLen entries) []]

/-- Witness for C3: two attachment directories (one listed twice, one
failing to construct) and a recipient directory. -/
theorem c3_attachment_tree_tolerates_all_witness :
    attachmentsGet ATTACHMENT_ERROR_BROKEN constructEx
        (attachmentDirs 1 [["r".toList, "__attach0".toList],
          ["r".toList, "__attach0".toList], ["r".toList, "__attach1".toList],
          ["r".toList, "__recip0".toList]]) ⟨false, false, none, none, []⟩
      = (.ok [⟨.normal, "__attach0".toList, []⟩, ⟨.broken, "__attach1".toList, []⟩],
         ⟨false, true, none,
          some [⟨.normal, "__attach0".toList, []⟩, ⟨.broken, "__attach1".toList, []⟩],
          []⟩) :=
  (c3_attachment_tree_tolerates_all constructEx 1
    [["r".toList, "__attach0".toList], ["r".toList, "__attach0".toList],
     ["r".toList, "__attach1".toList], ["r".toList, "__recip0".toList]]
    false (by decide)).1

/-- Replaying a queue onto a successfully constructed attachment appends
the whole queue, in order, to what it has received. -/
theorem foldl_attRegister_normal (q : List Reg) :
    ∀ a : AttObj, a.kind = .normal →
      q.foldl (fun b r => attRegister r b) a = { a with received := a.received ++ q } := by
  induction q with
  | nil => intro a _; simp
  | cons r rest ih =>
    intro a h
    have hstep : attRegister r a = { a with received := a.received ++ [r] } := by
      simp [attRegister, h]
    simp only [List.foldl, hstep]
    rw [ih { a with received := a.received ++ [r] } h]
    simp

/-- Replaying a queue onto a placeholder attachment leaves it
unchanged. -/
theorem foldl_attRegister_not_normal (q : List Reg) :
    ∀ a : AttObj, a.kind ≠ .normal →
      q.foldl (fun b r => attRegister r b) a = a := by
  induction q with
  | nil => intro a _; rfl
  | cons r rest ih =>
    intro a h
    have hstep : attRegister r a = a := by
      cases hk : a.kind with
      | normal => exact absurd hk h
      | unsupported => simp [attRegister, hk]
      | broken => simp [attRegister, hk]
    simp only [List.foldl, hstep]
    exact ih a h

/-- Every attachment the construction loop builds starts with an empty
received-registration list. -/
theorem buildAttachmentsAux_received (behavior : Nat)
    (construct : Str → ConstructOutcome) :
    ∀ (dirs : List Str) (acc : List AttObj),
      (∀ a ∈ acc, a.received = []) →
      ∀ a ∈ (buildAttachmentsAux behavior construct dirs acc).1, a.received = [] := by
  intro dirs
  induction dirs with
  | nil => intro acc hacc; simpa [buildAttachmentsAux] using hacc
  | cons d rest ih =>
    intro acc hacc
    have hext : ∀ (k : AttKind), ∀ a ∈ acc ++ [(⟨k, d, []⟩ : AttObj)],
        a.received = ([] : List Reg) := by
      intro k a ha
      rcases List.mem_append.mp ha with h | h
      · exact hacc a h
      · simp at h; subst h; rfl
    cases hc : construct d with
    | ok => simpa [buildAttachmentsAux, hc] using ih _ (hext .normal)
    | unsupportedType =>
      by_cases hbe : behavior > ATTACHMENT_ERROR_THROW
      · simpa [buildAttachmentsAux, hc, hbe] using ih _ (hext .unsupported)
      · simpa [buildAttachmentsAux, hc, hbe] using hacc
    | otherError =>
      by_cases hbe : behavior = ATTACHMENT_ERROR_BROKEN
      · simpa [buildAttachmentsAux, hc, hbe] using ih _ (hext .broken)
      · simpa [buildAttachmentsAux, hc, hbe] using hacc

/-- The replay pass gives every successfully constructed attachment the
whole queue and leaves every placeholder untouched. -/
theorem replayAll_received (q : List Reg) (l : List AttObj)
    (hl : ∀ b ∈ l, b.received = []) :
    ∀ a ∈ replayAll q l,
      (a.kind = .normal → a.received = q) ∧ (a.kind ≠ .normal → a.received = []) := by
  intro a ha
  rcases List.mem_map.mp ha with ⟨b, hb, rfl⟩
  by_cases hk : b.kind = .normal
  · rw [foldl_attRegister_normal q b hk]
    exact ⟨fun _ => by simp [hl b hb], fun hn => absurd hk hn⟩
  · rw [foldl_attRegister_not_normal q b hk]
    exact ⟨fun h => absurd h hk, fun _ => hl b hb⟩

/-- While attachments are delayed and not ready, a sequence of
registrations only extends the waiting queue and the message's own
table, in order. -/
theorem regMany_delayed (behavior : Nat) (construct : Str → ConstructOutcome)
    (dirs : List Str) :
    ∀ (q w sn : List Reg) (sc : Option (List AttObj)),
      regMany behavior construct dirs q ⟨true, false, some w, sc, sn⟩
        = .ok ⟨true, false, some (w ++ q), sc, sn ++ q⟩ := by
  intro q
  induction q with
  | nil => intro w sn sc; simp [regMany]
  | cons r rest ih =>
    intro w sn sc
    have hstep : registerNamedProperty behavior construct dirs r
        ⟨true, false, some w, sc, sn⟩
        = .ok ⟨true, false, some (w ++ [r]), sc, sn ++ [r]⟩ := by
      simp [registerNamedProperty]
    simp only [regMany, hstep]
    rw [ih (w ++ [r]) (sn ++ [r]) sc]
    simp

/-- From a fresh delayed message state, queuing `q` leaves waiting
exactly `q` (the attribute stays unset when `q` is empty). -/
theorem regMany_from_fresh (behavior : Nat) (construct : Str → ConstructOutcome)
    (dirs : List Str) (q : List Reg) :
    regMany behavior construct dirs q ⟨true, false, none, none, []⟩
      = .ok ⟨true, false, if q.isEmpty then none else some q, none, q⟩ := by
  cases q with
  | nil => rfl
  | cons r rest =>
    have hstep : registerNamedProperty behavior construct dirs r
        ⟨true, false, none, none, []⟩
        = .ok ⟨true, false, some [r], none, [r]⟩ := by
      simp [registerNamedProperty]
    simp only [regMany, hstep]
    rw [regMany_delayed behavior construct dirs rest [r] [r] none]
    simp

/-- C6: when attachment construction is deferred, registrations queued
while attachments are not ready are all replayed — at the first
successful attachment resolution, before the list is returned — onto
every successfully constructed attachment and only those (the
placeholder variants receive nothing); a registration arriving when
attachments are already ready is applied immediately, with no
queuing. -/
theorem c6_named_property_replay (behavior : Nat)
    (construct : Str → ConstructOutcome) (dirs : List Str) :
    (∀ (q : List Reg) (sq : MsgState) (l : List AttObj) (sr : MsgState),
      regMany behavior construct dirs q ⟨true, false, none, none, []⟩ = .ok sq →
      attachmentsGet behavior construct dirs sq = (.ok l, sr) →
      ∀ a ∈ l, (a.kind = .normal → a.received = q) ∧
        (a.kind ≠ .normal → a.received = [])) ∧
    (∀ (s : MsgState) (r : Reg) (l0 : List AttObj),
      s.ready = true → s.attachmentsCache = some l0 →
      registerNamedProperty behavior construct dirs r s
        = .ok { s with
            attachmentsCache := some (l0.map (attRegister r))
            namedProps := s.namedProps ++ [r] }) := by
  constructor
  · intro q sq l sr hreg hatt
    rw [regMany_from_fresh] at hreg
    simp only [Except.ok.injEq] at hreg
    subst hreg
    have hrecv0 : ∀ a ∈ (buildAttachmentsAux behavior construct dirs []).1,
        a.received = [] :=
      buildAttachmentsAux_received behavior construct dirs [] (by simp)
    rcases hb : buildAttachmentsAux behavior construct dirs [] with ⟨l0, err⟩
    rw [hb] at hrecv0
    by_cases hq : q.isEmpty
    · simp only [attachmentsGet, hq, if_pos, hb] at hatt
      cases err with
      | some d => simp at hatt
      | none =>
        simp only [Prod.mk.injEq, Except.ok.injEq] at hatt
        obtain ⟨hl, _⟩ := hatt
        subst hl
        have he : q = [] := List.isEmpty_iff.mp hq
        subst he
        intro a ha
        exact ⟨fun _ => hrecv0 a ha, fun _ => hrecv0 a ha⟩
    · simp only [attachmentsGet, hq, if_neg, Bool.false_eq_true, hb] at hatt
      cases err with
      | some d => simp at hatt
      | none =>
        simp only [Prod.mk.injEq, Except.ok.injEq] at hatt
        obtain ⟨hl, _⟩ := hatt
        subst hl
        exact replayAll_received q l0 hrecv0
  · intro s r l0 hready hcache
    simp [registerNamedProperty, attachmentsGet, hready, hcache]

/-- Witness for C6, immediate application: on a ready state holding one
constructed attachment, a registration is applied to it at once. -/
theorem c6_named_property_replay_witness :
    registerNamedProperty 2 constructEx [] ⟨1, 2, none⟩ ⟨false, true, none,
        some [⟨.normal, "__attach0".toList, []⟩], []⟩
      = .ok ⟨false, true, none,
        some [⟨.normal, "__attach0".toList, [⟨1, 2, none⟩]⟩], [⟨1, 2, none⟩]⟩ := by
  have h := (c6_named_property_replay 2 constructEx []).2
    ⟨false, true, none, some [⟨.normal, "__attach0".toList, []⟩], []⟩
    ⟨1, 2, none⟩ [⟨.normal, "__attach0".toList, []⟩] rfl rfl
  simpa [attRegister] using h

/-- When every nested-message attachment closes cleanly, the loop closes
them all, in list order, and reports no failure. -/
theorem closeLoop_all_ok :
    ∀ atts : List CloseAtt,
      (∀ a ∈ atts, a.typ = "msg".toList → a.closeOutcome = .ok) →
      closeLoop atts
        = ((atts.filter (fun a => a.typ == "msg".toList)).map (fun a => a.id), none) := by
  intro atts
  induction atts with
  | nil => intro _; rfl
  | cons a rest ih =>
    intro h
    by_cases ht : a.typ = "msg".toList
    · have ho : a.closeOutcome = .ok := h a (List.mem_cons_self a rest) ht
      simp [closeLoop, ht, ho, ih (fun b hb => h b (List.mem_cons_of_mem a hb))]
    · have ht2 : (a.typ == "msg".toList) = false := beq_eq_false_iff_ne.mpr ht
      have ht3 : ¬a.typ = ['m', 's', 'g'] := ht
      simp [closeLoop, ht2, ht3, ih (fun b hb => h b (List.mem_cons_of_mem a hb))]

/-- The close loop stops at the first failing nested-message attachment:
everything before it is closed, the failure is reported, and nothing
after it is attempted. -/
theorem closeLoop_stops (e : CloseOutcome) (he : e ≠ .ok) :
    ∀ (pre : List CloseAtt) (a : CloseAtt) (post : List CloseAtt),
      (∀ b ∈ pre, b.typ = "msg".toList → b.closeOutcome = .ok) →
      a.typ = "msg".toList → a.closeOutcome = e →
      closeLoop (pre ++ a :: post)
        = ((pre.filter (fun b => b.typ == "msg".toList)).map (fun b => b.id), some e) := by
  intro pre
  induction pre with
  | nil =>
    intro a post _ ht hout
    cases e with
    | ok => exact absurd rfl he
    | attrError => simp [closeLoop, ht, hout]
    | otherError => simp [closeLoop, ht, hout]
  | cons b rest ih =>
    intro a post hpre ht hout
    have hrec := ih a post (fun x hx => hpre x (List.mem_cons_of_mem b hx)) ht hout
    by_cases hb : b.typ = "msg".toList
    · have hbo : b.closeOutcome = .ok := hpre b (List.mem_cons_self b rest) hb
      simp [closeLoop, hb, hbo, hrec]
    · have hb2 : (b.typ == "msg".toList) = false := beq_eq_false_iff_ne.mpr hb
      have hb3 : ¬b.typ = ['m', 's', 'g'] := hb
      simp [closeLoop, hb2, hb3, hrec]

/-- C8, amended: `close` walks the attachment list in order but is not
best-effort: when every nested-message attachment closes cleanly, all of
them are closed and `super().close()` runs; at the first failing close,
the remaining attachments are not closed — a non-`AttributeError`
failure propagates to the caller before `super().close()` runs, while an
`AttributeError` is silently swallowed (still skipping the rest) with
`super().close()` still running; when attachments were never loaded,
only `super().close()` runs. -/
theorem c8_close_first_failure_aborts :
    (∀ atts : List CloseAtt,
      (∀ a ∈ atts, a.typ = "msg".toList → a.closeOutcome = .ok) →
      closeMsg true atts
        = ⟨(atts.filter (fun a => a.typ == "msg".toList)).map (fun a => a.id),
           none, true⟩) ∧
    (∀ (pre : List CloseAtt) (a : CloseAtt) (post : List CloseAtt),
      (∀ b ∈ pre, b.typ = "msg".toList → b.closeOutcome = .ok) →
      a.typ = "msg".toList → a.closeOutcome = .otherError →
      closeMsg true (pre ++ a :: post)
        = ⟨(pre.filter (fun b => b.typ == "msg".toList)).map (fun b => b.id),
           some .otherError, false⟩) ∧
    (∀ (pre : List CloseAtt) (a : CloseAtt) (post : List CloseAtt),
      (∀ b ∈ pre, b.typ = "msg".toList → b.closeOutcome = .ok) →
      a.typ = "msg".toList → a.closeOutcome = .attrError →
      closeMsg true (pre ++ a :: post)
        = ⟨(pre.filter (fun b => b.typ == "msg".toList)).map (fun b => b.id),
           none, true⟩) ∧
    (∀ atts : List CloseAtt, closeMsg false atts = ⟨[], none, true⟩) := by
  refine ⟨?_, ?_, ?_, ?_⟩
  · intro atts h
    simp [closeMsg, closeLoop_all_ok atts h]
  · intro pre a post hpre ht hout
    simp [closeMsg, closeLoop_stops .otherError (by decide) pre a post hpre ht hout]
  · intro pre a post hpre ht hout
    simp [closeMsg, closeLoop_stops .attrError (by decide) pre a post hpre ht hout]
  · intro atts
    simp [closeMsg]

/-- Witness for C8 at a concrete list: one clean nested message, then a
failing one, then one that is never reached. -/
theorem c8_close_first_failure_aborts_witness :
    closeMsg true [⟨0, "msg".toList, .ok⟩, ⟨1, "msg".toList, .otherError⟩,
        ⟨2, "msg".toList, .ok⟩]
      = ⟨[0], some .otherError, false⟩ :=
  c8_close_first_failure_aborts.2.1 [⟨0, "msg".toList, .ok⟩]
    ⟨1, "msg".toList, .otherError⟩ [⟨2, "msg".toList, .ok⟩]
    (by decide) rfl rfl
